import Mathlib

/-!
Verification of the finger-haptic-feedback-system repository core:
the YOLO11 detection postprocessing pipeline (src/utils/yolo11Detector.ts)
and the haptic device protocol controller (src/utils/hapticController.ts).

Numbers that the TypeScript source manipulates as IEEE doubles are modelled
as rationals (ℚ); byte-level protocol values are modelled as Nat/Int with
explicit reduction modulo 2^8 / 2^16 where the DataView setters wrap.
-/

namespace FingerHaptic

/-- Axis-aligned bounding box, as in the repository's `BoundingBox`
interface: top-left corner plus width/height. -/
structure BoundingBox where
  x : ℚ
  y : ℚ
  width : ℚ
  height : ℚ
deriving DecidableEq

/-- One detection record, as in the repository's `DetectionResult` interface.
`class` is a reserved word in Lean, so the field is named `cls`. -/
structure DetectionResult where
  id : String
  cls : String
  confidence : ℚ
  bbox : BoundingBox
  center : ℚ × ℚ
  timestamp : Nat
deriving DecidableEq

/-- Model of `YOLO11Detector.calculateIoU`: intersection over union of two
axis-aligned boxes, returning 0 when the intersection is empty. -/
def calculateIoU (box1 box2 : BoundingBox) : ℚ :=
  let x1 := max box1.x box2.x
  let y1 := max box1.y box2.y
  let x2 := min (box1.x + box1.width) (box2.x + box2.width)
  let y2 := min (box1.y + box1.height) (box2.y + box2.height)
  if x2 ≤ x1 ∨ y2 ≤ y1 then 0
  else
    let intersection := (x2 - x1) * (y2 - y1)
    let area1 := box1.width * box1.height
    let area2 := box2.width * box2.height
    intersection / (area1 + area2 - intersection)

/-- The interiors of two boxes are disjoint: the intersection rectangle is
degenerate in the x or in the y direction. -/
def interiorsDisjoint (box1 box2 : BoundingBox) : Prop :=
  min (box1.x + box1.width) (box2.x + box2.width) ≤ max box1.x box2.x ∨
  min (box1.y + box1.height) (box2.y + box2.height) ≤ max box1.y box2.y

/-- Claim C6: the IoU function gives 1 on two identical boxes of positive area,
0 on boxes with disjoint interiors, and smaller-area / larger-area when a
box of positive area is fully contained in another. -/
theorem calculateIoU_spec :
    (∀ b : BoundingBox, 0 < b.width → 0 < b.height → calculateIoU b b = 1) ∧
    (∀ b1 b2 : BoundingBox, interiorsDisjoint b1 b2 → calculateIoU b1 b2 = 0) ∧
    (∀ b1 b2 : BoundingBox, 0 < b1.width → 0 < b1.height →
      b2.x ≤ b1.x → b2.y ≤ b1.y →
      b1.x + b1.width ≤ b2.x + b2.width →
      b1.y + b1.height ≤ b2.y + b2.height →
      b1.width * b1.height ≤ b2.width * b2.height ∧
        calculateIoU b1 b2 = (b1.width * b1.height) / (b2.width * b2.height)) := by
  refine ⟨?_, ?_, ?_⟩
  · intro b hw hh
    have hx : ¬ (b.x + b.width ≤ b.x ∨ b.y + b.height ≤ b.y) := by
      simp only [not_or, not_le]
      exact ⟨by linarith, by linarith⟩
    have hne : b.width * b.height ≠ 0 := by positivity
    simp only [calculateIoU, min_self, max_self]
    rw [if_neg hx]
    have h1 : b.x + b.width - b.x = b.width := by ring
    have h2 : b.y + b.height - b.y = b.height := by ring
    rw [h1, h2]
    have h3 : b.width * b.height + b.width * b.height - b.width * b.height
        = b.width * b.height := by ring
    rw [h3, div_self hne]
  · intro b1 b2 h
    unfold interiorsDisjoint at h
    simp only [calculateIoU]
    rw [if_pos h]
  · intro b1 b2 hw hh hx hy hxw hyh
    have hwle : b1.width ≤ b2.width := by linarith
    have hhle : b1.height ≤ b2.height := by linarith
    have harea : b1.width * b1.height ≤ b2.width * b2.height := by
      have := mul_le_mul hwle hhle (le_of_lt hh) (by linarith)
      linarith
    refine ⟨harea, ?_⟩
    have hmx : max b1.x b2.x = b1.x := max_eq_left hx
    have hmy : max b1.y b2.y = b1.y := max_eq_left hy
    have hnx : min (b1.x + b1.width) (b2.x + b2.width) = b1.x + b1.width :=
      min_eq_left hxw
    have hny : min (b1.y + b1.height) (b2.y + b2.height) = b1.y + b1.height :=
      min_eq_left hyh
    have hcond : ¬ (min (b1.x + b1.width) (b2.x + b2.width) ≤ max b1.x b2.x ∨
        min (b1.y + b1.height) (b2.y + b2.height) ≤ max b1.y b2.y) := by
      rw [hmx, hmy, hnx, hny]
      simp only [not_or, not_le]
      exact ⟨by linarith, by linarith⟩
    simp only [calculateIoU, if_neg hcond]
    rw [hmx, hmy, hnx, hny]
    have h1 : b1.x + b1.width - b1.x = b1.width := by ring
    have h2 : b1.y + b1.height - b1.y = b1.height := by ring
    rw [h1, h2]
    have h3 : b1.width * b1.height + b2.width * b2.height - b1.width * b1.height
        = b2.width * b2.height := by ring
    rw [h3]

/-- Witness for C6 at concrete boxes: a unit box against itself, two far-apart
unit boxes, and the unit box at (1,1) inside the 4×4 box at the origin. -/
theorem calculateIoU_spec_witness :
    calculateIoU ⟨0, 0, 1, 1⟩ ⟨0, 0, 1, 1⟩ = 1 ∧
    calculateIoU ⟨0, 0, 1, 1⟩ ⟨5, 5, 1, 1⟩ = 0 ∧
    calculateIoU ⟨1, 1, 1, 1⟩ ⟨0, 0, 4, 4⟩ = (1 * 1) / (4 * 4) := by
  refine ⟨?_, ?_, ?_⟩
  · exact calculateIoU_spec.1 ⟨0, 0, 1, 1⟩ (by norm_num) (by norm_num)
  · exact calculateIoU_spec.2.1 ⟨0, 0, 1, 1⟩ ⟨5, 5, 1, 1⟩
      (by unfold interiorsDisjoint; norm_num)
  · exact (calculateIoU_spec.2.2 ⟨1, 1, 1, 1⟩ ⟨0, 0, 4, 4⟩
      (by norm_num) (by norm_num) (by norm_num) (by norm_num)
      (by norm_num) (by norm_num)).2

/-- The comparator used by `YOLO11Detector.applyNMS`'s sort,
`(a, b) => b.confidence - a.confidence`: `a` is ordered no later than `b`
exactly when `b.confidence ≤ a.confidence` (descending confidence). -/
def confGe (a b : DetectionResult) : Prop := b.confidence ≤ a.confidence

instance : DecidableRel confGe :=
  fun a b => inferInstanceAs (Decidable (b.confidence ≤ a.confidence))

instance : IsTotal DetectionResult confGe :=
  ⟨fun a b => le_total b.confidence a.confidence⟩

instance : IsTrans DetectionResult confGe :=
  ⟨fun _ _ _ hab hbc => le_trans hbc hab⟩

/-- Model of `detections.sort((a, b) => b.confidence - a.confidence)`.
The runtime sort is stable (ECMAScript 2019), which insertion sort with the
non-strict descending comparator reproduces exactly. -/
def sortDesc (detections : List DetectionResult) : List DetectionResult :=
  List.insertionSort confGe detections

/-- The greedy suppression loop of `YOLO11Detector.applyNMS`: keep the first
not-yet-suppressed detection, suppress every later detection whose IoU with it
exceeds the threshold, and continue with the remainder.  The imperative
`suppressed` index set is modelled by filtering the tail; a `fuel` argument
(always instantiated with the list length, which suffices because `filter`
never lengthens a list) makes the recursion structural. -/
def nmsLoopFuel (thr : ℚ) : Nat → List DetectionResult → List DetectionResult
  | _, [] => []
  | 0, _ :: _ => []
  | fuel + 1, d :: rest =>
      d :: nmsLoopFuel thr fuel
        (rest.filter fun e => decide (calculateIoU d.bbox e.bbox ≤ thr))

/-- Model of `YOLO11Detector.applyNMS`: sort by descending confidence, then
greedily suppress overlaps above the NMS threshold. -/
def applyNMS (thr : ℚ) (detections : List DetectionResult) : List DetectionResult :=
  let sorted := sortDesc detections
  nmsLoopFuel thr sorted.length sorted

lemma nmsLoopFuel_sublist (thr : ℚ) :
    ∀ (fuel : Nat) (l : List DetectionResult),
      List.Sublist (nmsLoopFuel thr fuel l) l := by
  intro fuel
  induction fuel with
  | zero =>
    intro l
    cases l with
    | nil => exact List.Sublist.refl _
    | cons d rest => exact List.nil_sublist _
  | succ fuel ih =>
    intro l
    cases l with
    | nil => exact List.Sublist.refl _
    | cons d rest =>
      exact List.Sublist.cons₂ d ((ih _).trans (List.filter_sublist rest))

lemma nmsLoopFuel_pairwise (thr : ℚ) :
    ∀ (fuel : Nat) (l : List DetectionResult), l.length ≤ fuel →
      (nmsLoopFuel thr fuel l).Pairwise
        (fun d e => calculateIoU d.bbox e.bbox ≤ thr) := by
  intro fuel
  induction fuel with
  | zero =>
    intro l hl
    cases l with
    | nil => exact List.Pairwise.nil
    | cons d rest => simp at hl
  | succ fuel ih =>
    intro l hl
    cases l with
    | nil => exact List.Pairwise.nil
    | cons d rest =>
      refine List.Pairwise.cons ?_ (ih _ ?_)
      · intro e he
        have hmem : e ∈ rest.filter fun e => decide (calculateIoU d.bbox e.bbox ≤ thr) :=
          (nmsLoopFuel_sublist thr fuel _).subset he
        have := List.of_mem_filter hmem
        exact of_decide_eq_true this
      · calc (rest.filter fun e => decide (calculateIoU d.bbox e.bbox ≤ thr)).length
            ≤ rest.length := (List.filter_sublist rest).length_le
          _ ≤ fuel := by simpa using hl

lemma nmsLoopFuel_eq_self (thr : ℚ) :
    ∀ (fuel : Nat) (l : List DetectionResult),
      l.Pairwise (fun d e => calculateIoU d.bbox e.bbox ≤ thr) →
      l.length ≤ fuel → nmsLoopFuel thr fuel l = l := by
  intro fuel
  induction fuel with
  | zero =>
    intro l hp hl
    cases l with
    | nil => rfl
    | cons d rest => simp at hl
  | succ fuel ih =>
    intro l hp hl
    cases l with
    | nil => rfl
    | cons d rest =>
      have hfilter : (rest.filter fun e => decide (calculateIoU d.bbox e.bbox ≤ thr))
          = rest := by
        refine List.filter_eq_self.mpr ?_
        intro e he
        exact decide_eq_true ((List.pairwise_cons.mp hp).1 e he)
      show d :: nmsLoopFuel thr fuel _ = d :: rest
      rw [hfilter, ih rest (List.pairwise_cons.mp hp).2 (by simpa using hl)]

/-- Claim C5: greedy NMS is idempotent — applying `applyNMS` to its own output
returns that output unchanged (same elements, same order). -/
theorem applyNMS_idempotent (thr : ℚ) (detections : List DetectionResult) :
    applyNMS thr (applyNMS thr detections) = applyNMS thr detections := by
  have hsorted : List.Sorted confGe (applyNMS thr detections) := by
    have hsub : List.Sublist (applyNMS thr detections) (sortDesc detections) :=
      nmsLoopFuel_sublist thr _ _
    exact List.Pairwise.sublist hsub (List.sorted_insertionSort confGe detections)
  have hpair : (applyNMS thr detections).Pairwise
      (fun d e => calculateIoU d.bbox e.bbox ≤ thr) :=
    nmsLoopFuel_pairwise thr _ _ le_rfl
  show nmsLoopFuel thr (sortDesc (applyNMS thr detections)).length
      (sortDesc (applyNMS thr detections)) = applyNMS thr detections
  rw [show sortDesc (applyNMS thr detections) = applyNMS thr detections from
    List.Sorted.insertionSort_eq hsorted]
  exact nmsLoopFuel_eq_self thr _ _ hpair le_rfl

/-- The detector configuration, as in the repository's `YOLOConfig`. -/
structure YOLOConfig where
  modelUrl : String
  confidenceThreshold : ℚ
  nmsThreshold : ℚ
  targetClasses : List String
  inputSize : Nat
deriving DecidableEq

/-- The 80 COCO class labels initialized by
`YOLO11Detector.initializeClassNames`. -/
def classNames : List String :=
  ["person", "bicycle", "car", "motorcycle", "airplane", "bus", "train", "truck",
   "boat", "traffic light", "fire hydrant", "stop sign", "parking meter", "bench",
   "bird", "cat", "dog", "horse", "sheep", "cow", "elephant", "bear", "zebra",
   "giraffe", "backpack", "umbrella", "handbag", "tie", "suitcase", "frisbee",
   "skis", "snowboard", "sports ball", "kite", "baseball bat", "baseball glove",
   "skateboard", "surfboard", "tennis racket", "bottle", "wine glass", "cup",
   "fork", "knife", "spoon", "bowl", "banana", "apple", "sandwich", "orange",
   "broccoli", "carrot", "hot dog", "pizza", "donut", "cake", "chair", "couch",
   "potted plant", "bed", "dining table", "toilet", "tv", "laptop", "mouse",
   "remote", "keyboard", "cell phone", "microwave", "oven", "toaster", "sink",
   "refrigerator", "book", "clock", "vase", "scissors", "teddy bear", "hair drier",
   "toothbrush"]

/-- The max-class loop of `YOLO11Detector.postprocessResults`: scan the class
scores with running maximum initialized to `(0, 0)`, updating only on a
strictly larger score (first maximum wins).  Returns (max score, its index). -/
def maxClassOf (scores : List ℚ) : ℚ × Nat :=
  scores.enum.foldl (fun acc p => if acc.1 < p.2 then (p.2, p.1) else acc) (0, 0)

/-- The objectness score of candidate `i`: `output[i*85 + 4]`. -/
def candObjectness (output : List ℚ) (i : Nat) : ℚ :=
  output.getD (i * 85 + 4) 0

/-- The 80 class scores of candidate `i`: `output[i*85 + 5 + j]` for `j < 80`. -/
def candScores (output : List ℚ) (i : Nat) : List ℚ :=
  (List.range 80).map fun j => output.getD (i * 85 + 5 + j) 0

/-- The body of the per-candidate loop in
`YOLO11Detector.postprocessResults`: decode the box, apply the objectness
threshold, pick the best class, apply the combined-confidence threshold and
the target-class filter; `continue` is modelled by returning `none`.
`now` is the value the runtime clock (`Date.now()`) returns during the call;
it flows into the `id` string and the `timestamp` field. -/
def postprocessCandidate (config : YOLOConfig) (scaleX scaleY : ℚ) (now : Nat)
    (output : List ℚ) (i : Nat) : Option DetectionResult :=
  let offset := i * 85
  let centerX := output.getD offset 0 * scaleX
  let centerY := output.getD (offset + 1) 0 * scaleY
  let width := output.getD (offset + 2) 0 * scaleX
  let height := output.getD (offset + 3) 0 * scaleY
  let confidence := candObjectness output i
  if confidence < config.confidenceThreshold then none
  else
    let mc := maxClassOf (candScores output i)
    let finalConfidence := confidence * mc.1
    if finalConfidence < config.confidenceThreshold then none
    else
      let className := classNames.getD mc.2 ""
      if config.targetClasses.contains className then
        some {
          id := className ++ "_" ++ toString now ++ "_" ++ toString i
          cls := className
          confidence := finalConfidence
          bbox := ⟨centerX - width / 2, centerY - height / 2, width, height⟩
          center := (centerX, centerY)
          timestamp := now }
      else none

/-- Model of `YOLO11Detector.postprocessResults`: decode and filter each of
the `output.length / 85` candidate records, then apply NMS. -/
def postprocessResults (config : YOLOConfig) (output : List ℚ)
    (scaleX scaleY : ℚ) (now : Nat) : List DetectionResult :=
  applyNMS config.nmsThreshold
    ((List.range (output.length / 85)).filterMap
      (postprocessCandidate config scaleX scaleY now output))

/-- The two confidence guards of the per-candidate loop, factored out: a
candidate passes the threshold filter when neither its objectness nor its
combined confidence is strictly below the configured threshold. -/
def passesThreshold (thr conf : ℚ) (scores : List ℚ) : Bool :=
  if conf < thr then false
  else if conf * (maxClassOf scores).1 < thr then false
  else true

lemma maxClass_foldl_nonneg :
    ∀ (l : List (Nat × ℚ)) (acc : ℚ × Nat), 0 ≤ acc.1 →
      0 ≤ (l.foldl (fun acc p => if acc.1 < p.2 then (p.2, p.1) else acc) acc).1 := by
  intro l
  induction l with
  | nil => intro acc h; exact h
  | cons p l ih =>
    intro acc h
    simp only [List.foldl_cons]
    by_cases hlt : acc.1 < p.2
    · exact ih _ (by simp only [if_pos hlt]; exact le_of_lt (lt_of_le_of_lt h hlt))
    · exact ih _ (by simp only [if_neg hlt]; exact h)

lemma maxClass_foldl_le_one :
    ∀ (l : List (Nat × ℚ)) (acc : ℚ × Nat), (∀ p ∈ l, p.2 ≤ 1) → acc.1 ≤ 1 →
      (l.foldl (fun acc p => if acc.1 < p.2 then (p.2, p.1) else acc) acc).1 ≤ 1 := by
  intro l
  induction l with
  | nil => intro acc _ h; exact h
  | cons p l ih =>
    intro acc hb h
    simp only [List.foldl_cons]
    by_cases hlt : acc.1 < p.2
    · refine ih _ (fun q hq => hb q (List.mem_cons_of_mem p hq)) ?_
      simp only [if_pos hlt]
      exact hb p (List.mem_cons_self p l)
    · exact ih _ (fun q hq => hb q (List.mem_cons_of_mem p hq))
        (by simp only [if_neg hlt]; exact h)

lemma maxClass_foldl_id :
    ∀ (l : List (Nat × ℚ)) (acc : ℚ × Nat), (∀ p ∈ l, p.2 ≤ acc.1) →
      l.foldl (fun acc p => if acc.1 < p.2 then (p.2, p.1) else acc) acc = acc := by
  intro l
  induction l with
  | nil => intro acc _; rfl
  | cons p l ih =>
    intro acc h
    simp only [List.foldl_cons,
      if_neg (not_lt.mpr (h p (List.mem_cons_self p l)))]
    exact ih acc fun q hq => h q (List.mem_cons_of_mem p hq)

lemma maxClassOf_fst_nonneg (scores : List ℚ) : 0 ≤ (maxClassOf scores).1 :=
  maxClass_foldl_nonneg _ _ le_rfl

lemma maxClassOf_fst_le_one (scores : List ℚ) (h : ∀ s ∈ scores, s ≤ 1) :
    (maxClassOf scores).1 ≤ 1 :=
  maxClass_foldl_le_one _ _
    (fun p hp => h p.2 (List.snd_mem_of_mem_enum hp)) (by norm_num)

/-- Claim C4: the confidence-threshold filter is boundary inclusive.  For class
scores in the model's output range (at most 1) and nonnegative objectness, a
candidate whose combined confidence is exactly the threshold passes the
filter; a candidate whose combined confidence is strictly below the threshold
is dropped (`postprocessCandidate` yields `none`), and more generally any
candidate failing the factored-out filter is dropped. -/
theorem thresholdFilter_boundary :
    (∀ (thr conf : ℚ) (scores : List ℚ), 0 ≤ conf → (∀ s ∈ scores, s ≤ 1) →
      conf * (maxClassOf scores).1 = thr → passesThreshold thr conf scores = true) ∧
    (∀ (config : YOLOConfig) (scaleX scaleY : ℚ) (now : Nat)
        (output : List ℚ) (i : Nat),
      candObjectness output i * (maxClassOf (candScores output i)).1
          < config.confidenceThreshold →
      postprocessCandidate config scaleX scaleY now output i = none) ∧
    (∀ (config : YOLOConfig) (scaleX scaleY : ℚ) (now : Nat)
        (output : List ℚ) (i : Nat),
      passesThreshold config.confidenceThreshold (candObjectness output i)
          (candScores output i) = false →
      postprocessCandidate config scaleX scaleY now output i = none) := by
  have hdrop : ∀ (config : YOLOConfig) (scaleX scaleY : ℚ) (now : Nat)
      (output : List ℚ) (i : Nat),
      candObjectness output i * (maxClassOf (candScores output i)).1
          < config.confidenceThreshold →
      postprocessCandidate config scaleX scaleY now output i = none := by
    intro config scaleX scaleY now output i h
    simp only [postprocessCandidate]
    by_cases h1 : candObjectness output i < config.confidenceThreshold
    · rw [if_pos h1]
    · rw [if_neg h1, if_pos h]
  refine ⟨?_, hdrop, ?_⟩
  · intro thr conf scores h0 h1 heq
    have hm1 : (maxClassOf scores).1 ≤ 1 := maxClassOf_fst_le_one scores h1
    have hle : conf * (maxClassOf scores).1 ≤ conf :=
      mul_le_of_le_one_right h0 hm1
    simp only [passesThreshold]
    rw [if_neg (not_lt.mpr (heq ▸ hle)), if_neg (not_lt.mpr (le_of_eq heq.symm))]
  · intro config scaleX scaleY now output i h
    by_cases h1 : candObjectness output i < config.confidenceThreshold
    · simp only [postprocessCandidate]
      rw [if_pos h1]
    · by_cases h2 : candObjectness output i *
          (maxClassOf (candScores output i)).1 < config.confidenceThreshold
      · exact hdrop config scaleX scaleY now output i h2
      · exfalso
        simp only [passesThreshold, if_neg h1, if_neg h2] at h
        exact Bool.noConfusion h

/-- Witness for C4: with threshold 1/2, a candidate of objectness 1/2 and
best class score 1 (combined confidence exactly 1/2) passes the filter, and
the all-zero candidate record (combined confidence 0) is dropped. -/
theorem thresholdFilter_boundary_witness :
    passesThreshold (1/2) (1/2) [1] = true ∧
    postprocessCandidate ⟨"model.onnx", 1/2, 1/2, ["person"], 640⟩ 1 1 0 [] 0
      = none := by
  have hm1 : maxClassOf [1] = (1, 0) := by
    norm_num [maxClassOf, List.enum, List.enumFrom]
  have hm0 : maxClassOf (candScores [] 0) = (0, 0) := by
    apply maxClass_foldl_id
    intro p hp
    have hmem : p.2 ∈ candScores ([] : List ℚ) 0 := List.snd_mem_of_mem_enum hp
    simp only [candScores, List.mem_map] at hmem
    obtain ⟨j, _, hj⟩ := hmem
    simp only [List.getD] at hj
    simp [← hj]
  constructor
  · refine thresholdFilter_boundary.1 (1/2) (1/2) [1] (by norm_num)
      (by intro s hs; simp at hs; rw [hs]) ?_
    rw [hm1]
    norm_num
  · refine thresholdFilter_boundary.2.1 ⟨"model.onnx", 1/2, 1/2, ["person"], 640⟩
      1 1 0 [] 0 ?_
    rw [hm0]
    simp [candObjectness]

/-- The state `YOLO11Detector.detect` dispatches on: the `isInitialized` flag
and whether `this.session` is non-null. -/
structure DetectorState where
  isInitialized : Bool
  sessionPresent : Bool
deriving DecidableEq

/-- The Ready state of the detector session: initialized with a live
inference session (the exact guard `detect` tests). -/
def DetectorState.ready (st : DetectorState) : Bool :=
  st.isInitialized && st.sessionPresent

/-- Model of `YOLO11Detector.detect`.  `pipeline` is the outcome of the try
block body (preprocess → inference run → `postprocessResults`), with
`Except.error` standing for any exception raised inside it; the catch clause
turns such an exception into an empty detection list.  The guard before the
try block throws when the session is not ready. -/
def detect (st : DetectorState)
    (pipeline : Except Unit (List DetectionResult)) :
    Except String (List DetectionResult) :=
  if !st.isInitialized || !st.sessionPresent then
    Except.error "YOLO11 detector not initialized"
  else
    match pipeline with
    | Except.ok detections => Except.ok detections
    | Except.error _ => Except.ok []

/-- Claim C3: `detect` raises an error exactly when the session is not Ready, and
when Ready any failure of the preprocess/inference/postprocess pipeline is
caught and turned into the empty detection list. -/
theorem detect_error_iff :
    (∀ (st : DetectorState) (pipeline : Except Unit (List DetectionResult)),
      (∃ msg, detect st pipeline = Except.error msg) ↔ st.ready = false) ∧
    (∀ (st : DetectorState) (e : Unit), st.ready = true →
      detect st (Except.error e) = Except.ok []) := by
  constructor
  · intro st pipeline
    cases hi : st.isInitialized <;> cases hs : st.sessionPresent <;>
      simp [detect, DetectorState.ready, hi, hs] <;>
      cases pipeline <;> simp
  · intro st e h
    simp only [DetectorState.ready, Bool.and_eq_true] at h
    simp [detect, h.1, h.2]

/-- Witness for C3: an uninitialized session rejects, and a ready session
turns a pipeline failure into the empty list. -/
theorem detect_error_iff_witness :
    (∃ msg, detect ⟨false, false⟩ (Except.ok []) = Except.error msg) ∧
    detect ⟨true, true⟩ (Except.error ()) = Except.ok [] :=
  ⟨(detect_error_iff.1 ⟨false, false⟩ (Except.ok [])).mpr rfl,
   detect_error_iff.2 ⟨true, true⟩ () rfl⟩

/-- Capability flags of a finger device, as in `DeviceCapabilities`. -/
structure DeviceCapabilities where
  vibration : Bool
  temperature : Bool
  pressure : Bool
  flex : Bool
deriving DecidableEq

/-- Device record, as in the repository's `FingerDevice`. -/
structure FingerDevice where
  id : String
  name : String
  connected : Bool
  batteryLevel : Nat
  firmwareVersion : String
  capabilities : DeviceCapabilities
deriving DecidableEq

/-- Vibration command parameters, as in `VibrationConfig`.  The runtime
numbers are modelled as ℚ for the [0,1] intensity and as Nat for the
integer-valued frequency/duration. -/
structure VibrationConfig where
  intensity : ℚ
  frequency : Nat
  duration : Nat
  pattern : String
deriving DecidableEq

/-- Temperature command parameters, as in `TemperatureConfig`. -/
structure TemperatureConfig where
  target : ℤ
  rampTime : Nat
  holdTime : Nat
deriving DecidableEq

/-- Haptic profile, as in `HapticProfile`: optional vibration and temperature
sub-configs plus overall duration/intensity. -/
structure HapticProfile where
  vibration : Option VibrationConfig
  temperature : Option TemperatureConfig
  duration : Nat
  intensity : ℚ
deriving DecidableEq

/-- Model of `HapticController.getPatternCode`: the fixed pattern table with
fallback code 1 for unknown names. -/
def getPatternCode (pattern : String) : Nat :=
  if pattern = "sharp" then 1
  else if pattern = "soft" then 2
  else if pattern = "medium" then 3
  else if pattern = "pulse" then 4
  else 1

/-- Model of `HapticController.calculateChecksum`: byte-wise sum truncated to
8 bits (`sum & 0xFF`, i.e. mod 256 on nonnegative values). -/
def calculateChecksum (data : List Nat) : Nat :=
  data.sum % 256

/-- The 8-byte vibration frame built by `HapticController.sendVibration`.
`setUint8` stores its argument modulo 2^8 (so `Math.floor(intensity*255)` is
reduced via the Int euclidean remainder) and `setUint16 (..., true)` stores
little-endian modulo 2^16. -/
def vibrationFrame (config : VibrationConfig) : List Nat :=
  let b0 := 1
  let b1 := ((Int.floor (config.intensity * 255)).emod 256).toNat
  let b2 := config.frequency % 65536 % 256
  let b3 := config.frequency % 65536 / 256
  let b4 := config.duration % 65536 % 256
  let b5 := config.duration % 65536 / 256
  let b6 := getPatternCode config.pattern
  [b0, b1, b2, b3, b4, b5, b6, calculateChecksum [b0, b1, b2, b3, b4, b5, b6]]

/-- The 8-byte temperature frame built by `HapticController.sendTemperature`.
`setInt8` stores the target temperature as its wrapped byte (value modulo
2^8); byte 6 is reserved (0). -/
def temperatureFrame (config : TemperatureConfig) : List Nat :=
  let b0 := 2
  let b1 := (config.target.emod 256).toNat
  let b2 := config.rampTime % 65536 % 256
  let b3 := config.rampTime % 65536 / 256
  let b4 := config.holdTime % 65536 % 256
  let b5 := config.holdTime % 65536 / 256
  let b6 := 0
  [b0, b1, b2, b3, b4, b5, b6, calculateChecksum [b0, b1, b2, b3, b4, b5, b6]]

/-- The 2-byte stop-all frame built by `HapticController.stopAllFeedback`. -/
def stopAllFrame : List Nat :=
  [3, calculateChecksum [3]]

/-- Claim C1: every command frame the controller builds carries, as its trailing
byte, the additive checksum modulo 256 of all preceding bytes; in particular
the vibration frame for intensity 1.0, frequency 200, duration 100, pattern
"sharp" has byte 7 equal to the 8-bit truncated sum of bytes 0–6. -/
theorem frame_checksum_spec :
    (∀ v : VibrationConfig,
      (vibrationFrame v).getLast? = some ((vibrationFrame v).dropLast.sum % 256)) ∧
    (∀ t : TemperatureConfig,
      (temperatureFrame t).getLast? = some ((temperatureFrame t).dropLast.sum % 256)) ∧
    stopAllFrame.getLast? = some (stopAllFrame.dropLast.sum % 256) ∧
    (vibrationFrame ⟨1, 200, 100, "sharp"⟩).getD 7 0
      = ((vibrationFrame ⟨1, 200, 100, "sharp"⟩).take 7).sum % 256 := by
  refine ⟨?_, ?_, ?_, ?_⟩
  · intro v
    simp [vibrationFrame, calculateChecksum]
  · intro t
    simp [temperatureFrame, calculateChecksum]
  · rfl
  · have h : Int.floor ((1 : ℚ) * 255) = 255 := by norm_num
    simp [vibrationFrame, calculateChecksum, getPatternCode, h]

/-- The controller state that the send paths of `HapticController` read:
the `isConnected` flag, the cached `deviceInfo`, and whether the vibration
and temperature characteristics were discovered (present in the
`characteristics` map). -/
structure ControllerState where
  isConnected : Bool
  deviceInfo : Option FingerDevice
  vibrationCharPresent : Bool
  temperatureCharPresent : Bool
deriving DecidableEq

/-- The optional-chaining guard `this.deviceInfo?.capabilities.vibration`
(undefined, hence falsy, when `deviceInfo` is null). -/
def ControllerState.vibCapable (st : ControllerState) : Bool :=
  (st.deviceInfo.map fun d => d.capabilities.vibration).getD false

/-- The optional-chaining guard `this.deviceInfo?.capabilities.temperature`. -/
def ControllerState.tempCapable (st : ControllerState) : Bool :=
  (st.deviceInfo.map fun d => d.capabilities.temperature).getD false

/-- Model of `HapticController.sendVibration`.  Returns the boolean result
together with the list of frames handed to the transport write
(`characteristic.writeValue`).  `writeOk` is the outcome of that
asynchronous write; a rejected write is caught and yields `false`. -/
def sendVibration (st : ControllerState) (config : VibrationConfig)
    (writeOk : Bool) : Bool × List (List Nat) :=
  if !st.isConnected || !st.vibCapable then (false, [])
  else if !st.vibrationCharPresent then (false, [])
  else if writeOk then (true, [vibrationFrame config])
  else (false, [vibrationFrame config])

/-- Model of `HapticController.sendTemperature`, analogous to
`sendVibration`. -/
def sendTemperature (st : ControllerState) (config : TemperatureConfig)
    (writeOk : Bool) : Bool × List (List Nat) :=
  if !st.isConnected || !st.tempCapable then (false, [])
  else if !st.temperatureCharPresent then (false, [])
  else if writeOk then (true, [temperatureFrame config])
  else (false, [temperatureFrame config])

/-- Model of `HapticController.sendHapticFeedback`: send the vibration
sub-command if present, then the temperature sub-command if present, collect
the boolean results, and succeed exactly when every attempted sub-send
succeeded (`results.every`). -/
def sendHapticFeedback (st : ControllerState) (profile : HapticProfile)
    (vibWriteOk tempWriteOk : Bool) : Bool × List (List Nat) :=
  let vib := match profile.vibration with
    | some v => let r := sendVibration st v vibWriteOk; ([r.1], r.2)
    | none => ([], [])
  let temp := match profile.temperature with
    | some t => let r := sendTemperature st t tempWriteOk; ([r.1], r.2)
    | none => ([], [])
  ((vib.1 ++ temp.1).all id, vib.2 ++ temp.2)

/-- Claim C7: `sendVibration` on a connected device whose vibration capability flag
is false fails without any transport write, and both send operations fail
without any write whenever the controller is not connected. -/
theorem send_capability_gating :
    (∀ (st : ControllerState) (v : VibrationConfig) (ok : Bool)
        (d : FingerDevice),
      st.deviceInfo = some d → d.capabilities.vibration = false →
      sendVibration st v ok = (false, [])) ∧
    (∀ (st : ControllerState) (v : VibrationConfig) (t : TemperatureConfig)
        (okv okt : Bool), st.isConnected = false →
      sendVibration st v okv = (false, []) ∧
      sendTemperature st t okt = (false, [])) := by
  constructor
  · intro st v ok d hd hcap
    have hguard : st.vibCapable = false := by
      simp [ControllerState.vibCapable, hd, hcap]
    simp [sendVibration, hguard]
  · intro st v t okv okt hconn
    constructor
    · simp [sendVibration, hconn]
    · simp [sendTemperature, hconn]

/-- Witness for C7 at a concrete connected-but-incapable state and a concrete
disconnected state. -/
theorem send_capability_gating_witness :
    sendVibration
      ⟨true, some ⟨"d1", "FingerSuit", true, 100, "1.0.0",
        ⟨false, true, false, false⟩⟩, true, true⟩
      ⟨1, 200, 100, "sharp"⟩ true = (false, []) ∧
    sendVibration ⟨false, none, true, true⟩ ⟨1, 200, 100, "sharp"⟩ true
      = (false, []) ∧
    sendTemperature ⟨false, none, true, true⟩ ⟨20, 100, 100⟩ true
      = (false, []) := by
  refine ⟨?_, ?_, ?_⟩
  · exact send_capability_gating.1 _ ⟨1, 200, 100, "sharp"⟩ true
      ⟨"d1", "FingerSuit", true, 100, "1.0.0", ⟨false, true, false, false⟩⟩
      rfl rfl
  · exact (send_capability_gating.2 ⟨false, none, true, true⟩
      ⟨1, 200, 100, "sharp"⟩ ⟨20, 100, 100⟩ true true rfl).1
  · exact (send_capability_gating.2 ⟨false, none, true, true⟩
      ⟨1, 200, 100, "sharp"⟩ ⟨20, 100, 100⟩ true true rfl).2

/-- Claim C10: a profile with neither sub-config present makes
`sendHapticFeedback` return success with no transport write, in any
controller state and for any write outcomes. -/
theorem sendHapticFeedback_empty_profile (st : ControllerState)
    (dur : Nat) (inten : ℚ) (okv okt : Bool) :
    sendHapticFeedback st ⟨none, none, dur, inten⟩ okv okt = (true, []) := by
  rfl

/-- Claim C2 counterexample: the encoder does not fail on out-of-range values.
With frequency 70000 (> 65535) on a connected, vibration-capable device with
a discovered characteristic, `sendVibration` still builds and transmits a
frame — whose frequency bytes hold 70000 mod 2^16 = 4464 (LE bytes 112, 17)
— and reports success, refuting the no-frame-is-transmitted claim. -/
theorem encode_out_of_range_counterexample :
    sendVibration
      ⟨true, some ⟨"d1", "FingerSuit", true, 100, "1.0.0",
        ⟨true, true, false, false⟩⟩, true, true⟩
      ⟨1, 70000, 100, "sharp"⟩ true
      = (true, [[1, 255, 112, 17, 100, 0, 1, 230]]) ∧
    (sendVibration
      ⟨true, some ⟨"d1", "FingerSuit", true, 100, "1.0.0",
        ⟨true, true, false, false⟩⟩, true, true⟩
      ⟨1, 70000, 100, "sharp"⟩ true).2 ≠ [] := by
  have hfloor : Int.floor ((1 : ℚ) * 255) = 255 := by norm_num
  constructor
  · simp only [sendVibration, ControllerState.vibCapable, vibrationFrame,
      calculateChecksum, getPatternCode, hfloor]
    norm_num
    decide
  · simp [sendVibration, ControllerState.vibCapable]

/-- Claim C2 as amended: an out-of-range field value does not make the encode
fail; the value is wrapped to its field width (`setUint16`/`setInt8`
semantics: mod 2^16 for frequency, duration, rampTime, holdTime; mod 2^8,
reinterpreted, for the temperature target) and the resulting frame is still
handed to the transport whenever the guards pass. -/
theorem encode_wraps_amended :
    ∀ (st : ControllerState) (v : VibrationConfig) (t : TemperatureConfig)
      (okv okt : Bool),
    st.isConnected = true → st.vibCapable = true → st.tempCapable = true →
    st.vibrationCharPresent = true → st.temperatureCharPresent = true →
    (sendVibration st v okv).2 = [vibrationFrame v] ∧
    (vibrationFrame v).getD 2 0 = v.frequency % 65536 % 256 ∧
    (vibrationFrame v).getD 3 0 = v.frequency % 65536 / 256 ∧
    (vibrationFrame v).getD 4 0 = v.duration % 65536 % 256 ∧
    (vibrationFrame v).getD 5 0 = v.duration % 65536 / 256 ∧
    (sendTemperature st t okt).2 = [temperatureFrame t] ∧
    (temperatureFrame t).getD 1 0 = (t.target.emod 256).toNat ∧
    (temperatureFrame t).getD 2 0 = t.rampTime % 65536 % 256 ∧
    (temperatureFrame t).getD 4 0 = t.holdTime % 65536 % 256 := by
  intro st v t okv okt hconn hvcap htcap hvchar htchar
  refine ⟨?_, rfl, rfl, rfl, rfl, ?_, rfl, rfl, rfl⟩
  · cases okv <;> simp [sendVibration, hconn, hvcap, hvchar]
  · cases okt <;> simp [sendTemperature, hconn, htcap, htchar]

/-- Witness for the amended C2 at a concrete ready state and concrete
out-of-range configs. -/
theorem encode_wraps_amended_witness :
    (sendVibration
      ⟨true, some ⟨"d2", "FingerSuit", true, 90, "1.0.0",
        ⟨true, true, false, false⟩⟩, true, true⟩
      ⟨0, 65536, 0, "soft"⟩ false).2 = [vibrationFrame ⟨0, 65536, 0, "soft"⟩] ∧
    (vibrationFrame ⟨0, 65536, 0, "soft"⟩).getD 2 0 = 65536 % 65536 % 256 ∧
    (sendTemperature
      ⟨true, some ⟨"d2", "FingerSuit", true, 90, "1.0.0",
        ⟨true, true, false, false⟩⟩, true, true⟩
      ⟨200, 0, 0⟩ false).2 = [temperatureFrame ⟨200, 0, 0⟩] ∧
    (temperatureFrame ⟨200, 0, 0⟩).getD 1 0 = ((200 : ℤ).emod 256).toNat := by
  have h := encode_wraps_amended
    ⟨true, some ⟨"d2", "FingerSuit", true, 90, "1.0.0",
      ⟨true, true, false, false⟩⟩, true, true⟩
    ⟨0, 65536, 0, "soft"⟩ ⟨200, 0, 0⟩ false false
    rfl rfl rfl rfl rfl
  exact ⟨h.1, h.2.1, h.2.2.2.2.2.1, h.2.2.2.2.2.2.1⟩

/-- Model of `HapticController.parseStatusData`: `none` models the RangeError
a `DataView.getUint8` access beyond the payload raises; otherwise battery,
firmware version string, and the capability bitmask of byte 4. -/
def parseStatusData (data : List Nat) : Option (Nat × String × DeviceCapabilities) :=
  if data.length < 5 then none
  else some (data.getD 0 0,
    toString (data.getD 1 0) ++ "." ++ toString (data.getD 2 0) ++ "."
      ++ toString (data.getD 3 0),
    ⟨(data.getD 4 0).testBit 0, (data.getD 4 0).testBit 1,
     (data.getD 4 0).testBit 2, (data.getD 4 0).testBit 3⟩)

/-- The default device record the catch clause of
`HapticController.fetchDeviceInfo` installs. -/
def defaultDeviceInfo (devId devName : String) : FingerDevice :=
  ⟨devId, devName, true, 100, "1.0.0", ⟨true, true, false, false⟩⟩

/-- Model of `HapticController.fetchDeviceInfo`.  `statusChar` is `none`
when the status characteristic was never discovered; otherwise it carries the
outcome of `readValue()` (`Except.error` for a rejected read).  The result is
the value of `this.deviceInfo` after the call, starting from `deviceInfo`
(null on a fresh connect); `connect` then emits the `connected` event with
exactly this value. -/
def fetchDeviceInfo (devId devName : String)
    (statusChar : Option (Except Unit (List Nat)))
    (deviceInfo : Option FingerDevice) : Option FingerDevice :=
  match statusChar with
  | none => deviceInfo
  | some (Except.error _) => some (defaultDeviceInfo devId devName)
  | some (Except.ok data) =>
    match parseStatusData data with
    | none => some (defaultDeviceInfo devId devName)
    | some (bat, fw, caps) => some ⟨devId, devName, true, bat, fw, caps⟩

/-- Claim C8 counterexample: on a fresh connect where the status characteristic is
simply absent (no read error), `fetchDeviceInfo` leaves the device record
unpopulated — the `connected` event then carries null, not a record with
default capabilities. -/
theorem fetchDeviceInfo_absent_counterexample :
    fetchDeviceInfo "d1" "FingerSuit" none none = none ∧
    (none : Option FingerDevice) ≠ some (defaultDeviceInfo "d1" "FingerSuit") :=
  ⟨rfl, by simp⟩

/-- Claim C8 as amended: when the status characteristic is absent the device record
is left unchanged (null on a fresh connect) and the connected event carries
that null; the default capabilities (vibration and temperature only, pressure
and flex false) are installed only when the characteristic is present but
reading it rejects or parsing its payload throws. -/
theorem fetchDeviceInfo_amended :
    (∀ (devId devName : String) (prev : Option FingerDevice),
      fetchDeviceInfo devId devName none prev = prev) ∧
    (∀ (devId devName : String) (prev : Option FingerDevice) (e : Unit),
      fetchDeviceInfo devId devName (some (Except.error e)) prev
        = some (defaultDeviceInfo devId devName)) ∧
    (∀ (devId devName : String) (prev : Option FingerDevice) (data : List Nat),
      data.length < 5 →
      fetchDeviceInfo devId devName (some (Except.ok data)) prev
        = some (defaultDeviceInfo devId devName)) ∧
    (∀ devId devName : String,
      (defaultDeviceInfo devId devName).capabilities
        = ⟨true, true, false, false⟩) := by
  refine ⟨fun _ _ _ => rfl, fun _ _ _ _ => rfl, ?_, fun _ _ => rfl⟩
  intro devId devName prev data hlen
  simp [fetchDeviceInfo, parseStatusData, hlen]

/-- Witness for the amended C8 at concrete inputs, including a too-short
status payload. -/
theorem fetchDeviceInfo_amended_witness :
    fetchDeviceInfo "d3" "FingerSuit" none none = none ∧
    fetchDeviceInfo "d3" "FingerSuit" (some (Except.error ())) none
      = some (defaultDeviceInfo "d3" "FingerSuit") ∧
    fetchDeviceInfo "d3" "FingerSuit" (some (Except.ok [5])) none
      = some (defaultDeviceInfo "d3" "FingerSuit") :=
  ⟨fetchDeviceInfo_amended.1 "d3" "FingerSuit" none,
   fetchDeviceInfo_amended.2.1 "d3" "FingerSuit" none (),
   fetchDeviceInfo_amended.2.2.1 "d3" "FingerSuit" none [5] (by norm_num)⟩

/-- The clock-independent fields of a detection: everything except the `id`
string and the `timestamp`, which incorporate the value of `Date.now()`. -/
def eraseClock (d : DetectionResult) : String × ℚ × BoundingBox × (ℚ × ℚ) :=
  (d.cls, d.confidence, d.bbox, d.center)

/-- Two detections agree on all clock-independent fields. -/
def RClock (a b : DetectionResult) : Prop := eraseClock a = eraseClock b

lemma RClock.confidence_eq {a b : DetectionResult} (h : RClock a b) :
    a.confidence = b.confidence := congrArg (fun p => p.2.1) h

lemma RClock.bbox_eq {a b : DetectionResult} (h : RClock a b) :
    a.bbox = b.bbox := congrArg (fun p => p.2.2.1) h

lemma forall₂_map_eraseClock :
    ∀ {l₁ l₂ : List DetectionResult}, List.Forall₂ RClock l₁ l₂ →
      l₁.map eraseClock = l₂.map eraseClock := by
  intro l₁ l₂ h
  induction h with
  | nil => rfl
  | cons hab _ ih => simpa [ih] using hab

lemma forall₂_orderedInsert {a b : DetectionResult} (hab : RClock a b) :
    ∀ {l₁ l₂ : List DetectionResult}, List.Forall₂ RClock l₁ l₂ →
      List.Forall₂ RClock (List.orderedInsert confGe a l₁)
        (List.orderedInsert confGe b l₂) := by
  intro l₁ l₂ h
  induction h with
  | nil => exact List.Forall₂.cons hab List.Forall₂.nil
  | cons hxy htail ih =>
    rename_i x y l₁ l₂
    by_cases hcmp : confGe a x
    · have hcmp' : confGe b y := by
        unfold confGe at hcmp ⊢
        rw [← hab.confidence_eq, ← hxy.confidence_eq]
        exact hcmp
      simp only [List.orderedInsert, if_pos hcmp, if_pos hcmp']
      exact List.Forall₂.cons hab (List.Forall₂.cons hxy htail)
    · have hcmp' : ¬ confGe b y := by
        unfold confGe at hcmp ⊢
        rw [← hab.confidence_eq, ← hxy.confidence_eq]
        exact hcmp
      simp only [List.orderedInsert, if_neg hcmp, if_neg hcmp']
      exact List.Forall₂.cons hxy ih

lemma forall₂_sortDesc :
    ∀ {l₁ l₂ : List DetectionResult}, List.Forall₂ RClock l₁ l₂ →
      List.Forall₂ RClock (sortDesc l₁) (sortDesc l₂) := by
  intro l₁ l₂ h
  induction h with
  | nil => exact List.Forall₂.nil
  | cons hab _ ih => exact forall₂_orderedInsert hab ih

lemma forall₂_filter {p q : DetectionResult → Bool}
    (hpq : ∀ a b, RClock a b → p a = q b) :
    ∀ {l₁ l₂ : List DetectionResult}, List.Forall₂ RClock l₁ l₂ →
      List.Forall₂ RClock (l₁.filter p) (l₂.filter q) := by
  intro l₁ l₂ h
  induction h with
  | nil => exact List.Forall₂.nil
  | cons hab htail ih =>
    rename_i a b l₁ l₂
    by_cases hpa : p a
    · have hqb : q b = true := (hpq a b hab) ▸ hpa
      simp only [List.filter_cons, hpa, hqb]
      exact List.Forall₂.cons hab ih
    · have hqb : q b = false := (hpq a b hab) ▸ (Bool.eq_false_iff.mpr hpa)
      simp only [List.filter_cons, Bool.eq_false_iff.mpr hpa, hqb]
      exact ih

lemma forall₂_nmsLoopFuel (thr : ℚ) :
    ∀ (fuel : Nat) {l₁ l₂ : List DetectionResult},
      List.Forall₂ RClock l₁ l₂ →
      List.Forall₂ RClock (nmsLoopFuel thr fuel l₁) (nmsLoopFuel thr fuel l₂) := by
  intro fuel
  induction fuel with
  | zero =>
    intro l₁ l₂ h
    cases h with
    | nil => exact List.Forall₂.nil
    | cons hab htail => exact List.Forall₂.nil
  | succ fuel ih =>
    intro l₁ l₂ h
    cases h with
    | nil => exact List.Forall₂.nil
    | cons hab htail =>
      rename_i d₁ d₂ r₁ r₂
      refine List.Forall₂.cons hab (ih (forall₂_filter ?_ htail))
      intro a b hab'
      rw [hab.bbox_eq, hab'.bbox_eq]

lemma forall₂_applyNMS (thr : ℚ) {l₁ l₂ : List DetectionResult}
    (h : List.Forall₂ RClock l₁ l₂) :
    List.Forall₂ RClock (applyNMS thr l₁) (applyNMS thr l₂) := by
  have hsort := forall₂_sortDesc h
  have hlen : (sortDesc l₁).length = (sortDesc l₂).length := hsort.length_eq
  show List.Forall₂ RClock
    (nmsLoopFuel thr (sortDesc l₁).length (sortDesc l₁))
    (nmsLoopFuel thr (sortDesc l₂).length (sortDesc l₂))
  rw [hlen]
  exact forall₂_nmsLoopFuel thr _ hsort

/-- Pointwise relation between optional detections: both absent, or both
present with the same clock-independent fields. -/
def optRClock : Option DetectionResult → Option DetectionResult → Prop
  | none, none => True
  | some a, some b => RClock a b
  | _, _ => False

lemma forall₂_filterMap {f g : Nat → Option DetectionResult} :
    ∀ (l : List Nat), (∀ i ∈ l, optRClock (f i) (g i)) →
      List.Forall₂ RClock (l.filterMap f) (l.filterMap g) := by
  intro l
  induction l with
  | nil => intro _; exact List.Forall₂.nil
  | cons i l ih =>
    intro h
    have hi := h i (List.mem_cons_self i l)
    have hrest := ih fun j hj => h j (List.mem_cons_of_mem i hj)
    cases hf : f i with
    | none =>
      cases hg : g i with
      | none => simpa [List.filterMap_cons, hf, hg] using hrest
      | some b => rw [hf, hg] at hi; exact absurd hi (by simp [optRClock])
    | some a =>
      cases hg : g i with
      | none => rw [hf, hg] at hi; exact absurd hi (by simp [optRClock])
      | some b =>
        rw [hf, hg] at hi
        have hi' : RClock a b := hi
        simpa [List.filterMap_cons, hf, hg] using List.Forall₂.cons hi' hrest

lemma postprocessCandidate_clock_rel (config : YOLOConfig)
    (scaleX scaleY : ℚ) (t₁ t₂ : Nat) (output : List ℚ) (i : Nat) :
    optRClock (postprocessCandidate config scaleX scaleY t₁ output i)
      (postprocessCandidate config scaleX scaleY t₂ output i) := by
  simp only [postprocessCandidate]
  split_ifs <;> simp [optRClock, RClock, eraseClock]

lemma filter_conf_orderedInsert (a : DetectionResult) (c : ℚ) :
    ∀ l : List DetectionResult,
      (List.orderedInsert confGe a l).filter (fun d => decide (d.confidence = c))
        = if a.confidence = c
          then a :: l.filter (fun d => decide (d.confidence = c))
          else l.filter (fun d => decide (d.confidence = c)) := by
  intro l
  induction l with
  | nil =>
    simp only [List.orderedInsert_nil, List.filter]
    by_cases hac : a.confidence = c
    · rw [if_pos hac, decide_eq_true hac]
    · rw [if_neg hac, decide_eq_false hac]
  | cons b l ih =>
    by_cases hcmp : confGe a b
    · simp only [List.orderedInsert, if_pos hcmp]
      simp only [List.filter]
      by_cases hac : a.confidence = c
      · rw [if_pos hac, decide_eq_true hac]
      · rw [if_neg hac, decide_eq_false hac]
    · simp only [List.orderedInsert, if_neg hcmp, List.filter]
      by_cases hbc : b.confidence = c
      · have hac : a.confidence ≠ c := by
          intro hac
          exact hcmp (le_of_eq (hbc.trans hac.symm))
        rw [decide_eq_true hbc, ih, if_neg hac, if_neg hac]
      · rw [decide_eq_false hbc, ih]

/-- Stability of the descending-confidence sort: for every confidence value,
the sublist of detections carrying exactly that confidence is unchanged, so
ties keep their pre-sort (earliest-index-first) order. -/
lemma sortDesc_stable (c : ℚ) :
    ∀ l : List DetectionResult,
      (sortDesc l).filter (fun d => decide (d.confidence = c))
        = l.filter (fun d => decide (d.confidence = c)) := by
  intro l
  induction l with
  | nil => rfl
  | cons a l ih =>
    show (List.orderedInsert confGe a (sortDesc l)).filter _ = _
    rw [filter_conf_orderedInsert a c (sortDesc l), ih]
    by_cases hac : a.confidence = c
    · rw [if_pos hac]
      simp only [List.filter, decide_eq_true hac]
    · rw [if_neg hac]
      simp only [List.filter, decide_eq_false hac]

/-- Claim C9 as amended: postprocessing is deterministic in everything except the
two clock-derived fields.  For a fixed raw output array, scale factors and
configuration, runs at any two clock readings agree on ordering and on every
field other than `id` and `timestamp`; and confidence ties are broken by
earliest index in the pre-sort order (the sort is stable). -/
theorem postprocess_clock_determinism :
    (∀ (config : YOLOConfig) (output : List ℚ) (scaleX scaleY : ℚ)
        (t₁ t₂ : Nat),
      (postprocessResults config output scaleX scaleY t₁).map eraseClock
        = (postprocessResults config output scaleX scaleY t₂).map eraseClock) ∧
    (∀ (l : List DetectionResult) (c : ℚ),
      (sortDesc l).filter (fun d => decide (d.confidence = c))
        = l.filter (fun d => decide (d.confidence = c))) := by
  constructor
  · intro config output scaleX scaleY t₁ t₂
    apply forall₂_map_eraseClock
    apply forall₂_applyNMS
    apply forall₂_filterMap
    intro i _
    exact postprocessCandidate_clock_rel config scaleX scaleY t₁ t₂ output i
  · intro l c
    exact sortDesc_stable c l

/-- A concrete 85-entry raw output: one candidate with centre (0,0), size
10×10, objectness 1, class-0 ("person") score 1, all other class scores 0. -/
def sampleOutput : List ℚ :=
  [0, 0, 10, 10, 1, 1] ++ List.replicate 79 0

/-- The detection the sample candidate decodes to when the clock reads `t`. -/
def sampleDetection (t : Nat) : DetectionResult :=
  { id := "person" ++ "_" ++ toString t ++ "_" ++ toString 0
    cls := "person"
    confidence := 1
    bbox := ⟨-5, -5, 10, 10⟩
    center := (0, 0)
    timestamp := t }

lemma sampleOutput_candScores :
    candScores sampleOutput 0 = 1 :: List.replicate 79 0 := by
  show (List.range 80).map (fun j => sampleOutput.getD (0 * 85 + 5 + j) 0)
      = 1 :: List.replicate 79 0
  rw [show (80 : Nat) = 79 + 1 from rfl, List.range_succ_eq_map, List.map_cons,
    List.map_map]
  congr 1

lemma sampleOutput_maxClass :
    maxClassOf (candScores sampleOutput 0) = (1, 0) := by
  rw [sampleOutput_candScores]
  show ((1 : ℚ) :: List.replicate 79 0).enum.foldl
      (fun acc p => if acc.1 < p.2 then (p.2, p.1) else acc) (0, 0) = (1, 0)
  have henum : ((1 : ℚ) :: List.replicate 79 0).enum
      = (0, (1 : ℚ)) :: (List.replicate 79 (0 : ℚ)).enumFrom 1 := by
    simp [List.enum]
  rw [henum, List.foldl_cons]
  rw [if_pos (by norm_num : (0 : ℚ) < 1)]
  apply maxClass_foldl_id
  intro p hp
  have : p.2 ∈ List.replicate 79 (0 : ℚ) := List.snd_mem_of_mem_enumFrom hp
  rw [List.eq_of_mem_replicate this]
  norm_num

lemma sampleOutput_candidate (config : YOLOConfig)
    (hthr : config.confidenceThreshold = 1/2)
    (htgt : config.targetClasses = ["person"]) (t : Nat) :
    postprocessCandidate config 1 1 t sampleOutput 0 = some (sampleDetection t) := by
  have hobj : candObjectness sampleOutput 0 = 1 := by
    show sampleOutput.getD (0 * 85 + 4) 0 = 1
    rfl
  simp only [postprocessCandidate, hobj, sampleOutput_maxClass, hthr, htgt]
  rw [if_neg (by norm_num : ¬ (1 : ℚ) < 1/2),
    if_neg (by norm_num : ¬ (1 : ℚ) * 1 < 1/2)]
  have hcls : classNames.getD 0 "" = "person" := rfl
  rw [hcls]
  rw [if_pos (by simp)]
  have h0 : sampleOutput.getD (0 * 85) 0 = 0 := rfl
  have h1 : sampleOutput.getD (0 * 85 + 1) 0 = 0 := rfl
  have h2 : sampleOutput.getD (0 * 85 + 2) 0 = 10 := rfl
  have h3 : sampleOutput.getD (0 * 85 + 3) 0 = 10 := rfl
  rw [h0, h1, h2, h3]
  simp only [sampleDetection, Option.some.injEq, DetectionResult.mk.injEq,
    BoundingBox.mk.injEq, Prod.mk.injEq]
  norm_num

lemma sampleOutput_postprocess (t : Nat) :
    postprocessResults ⟨"model.onnx", 1/2, 1/2, ["person"], 640⟩
      sampleOutput 1 1 t = [sampleDetection t] := by
  have hlen : sampleOutput.length = 85 := by
    simp [sampleOutput]
  have hcand := sampleOutput_candidate
    ⟨"model.onnx", 1/2, 1/2, ["person"], 640⟩ rfl rfl t
  simp only [postprocessResults, hlen]
  rw [show List.range (85 / 85) = [0] from rfl, List.filterMap_cons, hcand,
    List.filterMap_nil]
  simp [applyNMS, sortDesc, nmsLoopFuel]

/-- Claim C9 counterexample: for the same raw output array, scale factors and
configuration, the run whose clock reads 0 and the run whose clock reads 1
produce different DetectionResult sequences — the `id` and `timestamp`
fields incorporate `Date.now()`, so the output is not byte-for-byte
identical across runs. -/
theorem postprocess_determinism_counterexample :
    postprocessResults ⟨"model.onnx", 1/2, 1/2, ["person"], 640⟩
      sampleOutput 1 1 0
      ≠ postprocessResults ⟨"model.onnx", 1/2, 1/2, ["person"], 640⟩
        sampleOutput 1 1 1 := by
  rw [sampleOutput_postprocess 0, sampleOutput_postprocess 1]
  intro h
  have h01 : sampleDetection 0 = sampleDetection 1 := by
    exact List.head_eq_of_cons_eq h
  have := congrArg DetectionResult.timestamp h01
  simp [sampleDetection] at this

end FingerHaptic
